import Mathlib

/-!
Verification of the ASCEND YouTube player backend (several successive
versions of a small Express service: an early direct-streaming version,
a first temp-file version in index.js, two ytdl-core caching versions,
and a yt-dlp based version).  The service logic is embedded shallowly:
JavaScript strings become Lean strings, JavaScript numbers that can be
NaN become a dedicated JsNum type, the temp directory becomes a list of
file names (with sizes or mtimes where needed), and each Express handler
becomes a pure function from the request and an oracle for the external
world (network, ffmpeg, yt-dlp) to a response value plus the resulting
temp-directory state.
-/

namespace Ascend

/-! ### JavaScript string primitives used by the handlers -/

/-- Character class test for the regex class [a-zA-Z0-9_-]. -/
def idChar (c : Char) : Bool :=
  c.isAlpha || c.isDigit || c == '_' || c == '-'

/-- JavaScript whitespace test, restricted to the ASCII whitespace that
`parseInt` skips (sufficient for the strings this service handles). -/
def jsSpace (c : Char) : Bool :=
  c == ' ' || c == '\t' || c == '\n' || c == '\r'

/-- Value of a string of decimal digits, most significant first. -/
def digitsVal (l : List Char) : Nat :=
  l.foldl (fun a c => 10 * a + (c.toNat - 48)) 0

/-- A JavaScript number that is either NaN or an integer.  All numbers
appearing in the service (byte offsets, file sizes, durations) are
integral, so the embedding does not need general floats. -/
inductive JsNum where
  | nan : JsNum
  | num : Int → JsNum
deriving DecidableEq, Repr

/-- JS subtraction: NaN propagates. -/
def JsNum.sub : JsNum → JsNum → JsNum
  | num a, num b => num (a - b)
  | _, _ => nan

/-- JS addition: NaN propagates. -/
def JsNum.add : JsNum → JsNum → JsNum
  | num a, num b => num (a + b)
  | _, _ => nan

/-- JS negation: NaN propagates. -/
def JsNum.neg : JsNum → JsNum
  | num a => num (-a)
  | nan => nan

/-- How a JS number is rendered inside a template literal. -/
def JsNum.toStr : JsNum → String
  | nan => "NaN"
  | num a => toString a

/-- The digit-parsing core of `parseInt(s, 10)`: longest prefix of
decimal digits, NaN when there is none. -/
def parseDigits (l : List Char) : JsNum :=
  let ds := l.takeWhile Char.isDigit
  if ds.isEmpty then JsNum.nan else JsNum.num (digitsVal ds)

/-- The sign-handling step of `parseInt`, applied after leading
whitespace has been skipped. -/
def jsParseIntSigned : List Char → JsNum
  | [] => JsNum.nan
  | c :: rest =>
    if c = '+' then parseDigits rest
    else if c = '-' then (parseDigits rest).neg
    else parseDigits (c :: rest)

/-- JavaScript `parseInt(s, 10)` on a list of characters: skip leading
whitespace, allow an optional sign, then read leading decimal digits. -/
def jsParseInt (l : List Char) : JsNum :=
  jsParseIntSigned (l.dropWhile jsSpace)

/-- `String.prototype.split` with a one-character separator (the service
only ever splits on '-').  Mirrors JS: the result is never empty and
keeps empty fields. -/
def splitChar (sep : Char) : List Char → List (List Char)
  | [] => [[]]
  | c :: rest =>
    if c = sep then [] :: splitChar sep rest
    else
      match splitChar sep rest with
      | [] => [[c]]
      | p :: ps => (c :: p) :: ps

/-- `String.prototype.replace(lit, '')` for a literal pattern: remove
the first occurrence of `pat` (used for `range.replace(/bytes=/, '')`). -/
def removeFirst (pat : List Char) : List Char → List Char
  | [] => []
  | c :: rest =>
    if pat.isPrefixOf (c :: rest) then (c :: rest).drop pat.length
    else c :: removeFirst pat rest

/-- Decidable substring test, the model of `String.prototype.includes`
for multi-character needles. -/
def hasSub (pat : List Char) : List Char → Bool
  | [] => pat.isPrefixOf []
  | c :: rest => pat.isPrefixOf (c :: rest) || hasSub pat rest

/-- `String.prototype.startsWith`. -/
def jsStartsWith (s pre' : String) : Bool :=
  pre'.data.isPrefixOf s.data

/-! ### The `/stream/:filename` handler

Embeds `app.get('/stream/:filename')`, which is textually identical in
index.js, both halves of the ytdl file, and the @distube version, except
that the later versions add a Cache-Control header (the `cacheControl`
flag).  The temp directory is a list of (name, size) pairs;
`existsSync`/`statSync` become an association-list lookup. -/

/-- The temp directory path (`path.join(__dirname, 'temp')`). -/
def TEMP_DIR : String := "temp"

/-- `path.join(TEMP_DIR, filename)`. -/
def tempJoin (filename : String) : String :=
  TEMP_DIR ++ "/" ++ filename

/-- The security check of the stream handler:
`filename.includes('..') || filename.includes('/') || filename.includes('\\')`. -/
def badFilename (filename : String) : Bool :=
  hasSub "..".data filename.data
    || filename.data.contains '/' || filename.data.contains '\\'

/-- The headers the stream handler writes with `res.writeHead`. -/
structure StreamHead where
  status : Nat
  contentRange : Option String
  acceptRanges : Option String
  contentLength : Option JsNum
  contentType : Option String
  cacheControl : Option String
deriving DecidableEq, Repr

/-- What the stream handler does with the response: an error JSON body
with a status, or a piped file read of `path` (the whole file when
`readRange` is `none`, otherwise the `{start, end}` options given to
`createReadStream`). -/
inductive StreamResponse where
  | jsonError : Nat → String → StreamResponse
  | fileStream : String → StreamHead → Option (JsNum × JsNum) → StreamResponse
deriving DecidableEq, Repr

/-- Value of the two range-parsing lines of the handler:
`parts = range.replace(/bytes=/, '').split('-')`,
`start = parseInt(parts[0], 10)`,
`end = parts[1] ? parseInt(parts[1], 10) : fileSize - 1`. -/
def parseRange (range : String) (fileSize : Nat) : JsNum × JsNum :=
  let parts := splitChar '-' (removeFirst "bytes=".data range.data)
  let start := jsParseInt (parts.headD [])
  let endv :=
    match parts.get? 1 with
    | some p => if p.isEmpty then JsNum.num ((fileSize : Int) - 1) else jsParseInt p
    | none => JsNum.num ((fileSize : Int) - 1)
  (start, endv)

/-- The synchronous option validation performed by
`fs.createReadStream(filepath, { start, end })` on Node 18 (the
Dockerfile pins node:18-slim): `start` and `end` must be integers >= 0
and `start <= end`, otherwise the ReadStream constructor throws
ERR_OUT_OF_RANGE.  A NaN offset (from `parseInt` of a malformed range
part) fails `Number.isInteger` and is rejected the same way.  The
offsets are not compared against the file size. -/
def validReadRange : JsNum → JsNum → Bool
  | JsNum.num s, JsNum.num e => decide (0 ≤ s) && decide (0 ≤ e) && decide (s ≤ e)
  | _, _ => false

/-- The `/stream/:filename` handler.  `files` is the temp directory
(name and size of each file); `range` is `req.headers.range`, where
`none` means the header is absent and `some ""` an empty header value
(JavaScript's `if (range)` treats both as falsy).  In the range branch
the handler calls `fs.createReadStream(filepath, { start, end })`
before `res.writeHead(206, head)`; when the parsed offsets fail the
constructor's validation the synchronous throw propagates out of the
handler and the error middleware of every version answers 500
'Internal server error'. -/
def streamHandler (cacheControl : Bool) (files : List (String × Nat))
    (filename : String) (range : Option String) : StreamResponse :=
  if badFilename filename then .jsonError 400 "Invalid filename"
  else
    match (files.lookup filename : Option Nat) with
    | none => .jsonError 404 "Audio file not found"
    | some fileSize =>
      let cc : Option String :=
        if cacheControl then some "public, max-age=3600" else none
      match range with
      | some r =>
        if r = "" then
          .fileStream (tempJoin filename)
            ⟨200, none, some "bytes", some (JsNum.num fileSize), some "audio/mpeg", cc⟩
            none
        else
          let se := parseRange r fileSize
          let chunksize := (se.2.sub se.1).add (JsNum.num 1)
          if validReadRange se.1 se.2 then
            .fileStream (tempJoin filename)
              ⟨206,
               some ("bytes " ++ se.1.toStr ++ "-" ++ se.2.toStr ++ "/" ++ toString fileSize),
               some "bytes", some chunksize, some "audio/mpeg", cc⟩
              (some se)
          else .jsonError 500 "Internal server error"
      | none =>
        .fileStream (tempJoin filename)
          ⟨200, none, some "bytes", some (JsNum.num fileSize), some "audio/mpeg", cc⟩
          none

/-- Status code of a stream response. -/
def StreamResponse.status : StreamResponse → Nat
  | .jsonError s _ => s
  | .fileStream _ h _ => h.status

/-! ### formatDuration (identical in every version) -/

/-- `String.prototype.padStart(2, '0')`. -/
def padStart2 (s : String) : String :=
  if s.length ≥ 2 then s
  else String.mk (List.replicate (2 - s.length) '0') ++ s

/-- `formatDuration(seconds)` for a nonnegative integral argument (the
service always calls it on `parseInt(...lengthSeconds)` or an integer
duration). -/
def formatDuration (seconds : Nat) : String :=
  let hrs := seconds / 3600
  let mins := (seconds % 3600) / 60
  let secs := seconds % 60
  if hrs > 0 then
    toString hrs ++ ":" ++ padStart2 (toString mins) ++ ":" ++ padStart2 (toString secs)
  else
    toString mins ++ ":" ++ padStart2 (toString secs)

/-- Written from the claim's words, for comparison with `formatDuration`:
'H:MM:SS' when s >= 3600 with H = floor(s/3600) unpadded,
MM = floor((s mod 3600)/60) and SS = s mod 60 both zero-padded to two
digits; otherwise 'M:SS' with M = floor(s/60) unpadded and SS = s mod 60
zero-padded to two digits. -/
def formatDurationSpec (s : Nat) : String :=
  let twoDigit : Nat → String := fun n =>
    if n < 10 then "0" ++ toString n else toString n
  if s ≥ 3600 then
    toString (s / 3600) ++ ":" ++ twoDigit ((s % 3600) / 60) ++ ":" ++ twoDigit (s % 60)
  else
    toString (s / 60) ++ ":" ++ twoDigit (s % 60)

/-! ### extractVideoId -/

/-- One regex alternative of the URL patterns: a literal followed by a
capture of exactly eleven characters of the class [a-zA-Z0-9_-].  Tries
the alternative at the head of `s`; the capture is the eleven class
characters right after the literal. -/
def captureAt (alt : List Char) (s : List Char) : Option (List Char) :=
  if alt.isPrefixOf s then
    if ((s.drop alt.length).take 11).length = 11 &&
        ((s.drop alt.length).take 11).all idChar
    then some ((s.drop alt.length).take 11) else none
  else none

/-- Try the alternatives of one pattern, in source order, at the head of
`s` (JavaScript alternation order at a fixed position). -/
def tryAlts (alts : List (List Char)) (s : List Char) : Option (List Char) :=
  match alts with
  | [] => none
  | a :: rest =>
    match captureAt a s with
    | some v => some v
    | none => tryAlts rest s

/-- Leftmost unanchored match: scan positions left to right, trying the
alternatives at each one — the semantics of `input.match(pattern)` for
the patterns of `extractVideoId`, which are alternations of literals
followed by an 11-character class capture. -/
def scanMatch (alts : List (List Char)) : List Char → Option (List Char)
  | [] => tryAlts alts []
  | c :: rest =>
    match tryAlts alts (c :: rest) with
    | some v => some v
    | none => scanMatch alts rest

/-- Run one unanchored pattern (given by its list of literal
alternatives) over a string. -/
def runPattern (alts : List String) (s : String) : Option String :=
  (scanMatch (alts.map String.data) s.data).map String.mk

/-- The final anchored pattern `/^([a-zA-Z0-9_-]{11})$/`. -/
def anchored11 (s : String) : Option String :=
  if s.length = 11 && s.data.all idChar then some s else none

/-- The alternatives of the first URL pattern (shared by all versions):
`/(?:youtube\.com\/watch\?v=|youtu\.be\/|youtube\.com\/embed\/)(...)/`. -/
def mainAlts : List String :=
  ["youtube.com/watch?v=", "youtu.be/", "youtube.com/embed/"]

/-- One entry of the `patterns` array of `extractVideoId`: either an
unanchored alternation of literals followed by the 11-character capture,
or the final anchored `/^([a-zA-Z0-9_-]{11})$/`. -/
inductive Pattern where
  | alts : List String → Pattern
  | anchoredId : Pattern
deriving DecidableEq, Repr

/-- `input.match(pattern)` restricted to the capture group. -/
def runPat : Pattern → String → Option String
  | .alts as, s => runPattern as s
  | .anchoredId, s => anchored11 s

/-- The `for (const pattern of patterns)` loop of `extractVideoId`:
return the capture of the first pattern that matches, else null. -/
def firstMatch : List Pattern → String → Option String
  | [], _ => none
  | p :: ps, s =>
    match runPat p s with
    | some m => some m
    | none => firstMatch ps s

/-- The `patterns` array of index.js. -/
def patternsV1 : List Pattern := [.alts mainAlts, .anchoredId]

/-- The `patterns` array of the later versions (music., m., /v/ and
/shorts/ added), in source order. -/
def patternsLater : List Pattern :=
  [.alts mainAlts,
   .alts ["music.youtube.com/watch?v="],
   .alts ["m.youtube.com/watch?v="],
   .alts ["youtube.com/v/"],
   .alts ["youtube.com/shorts/"],
   .anchoredId]

/-- `extractVideoId` of index.js: early return of an 11-character id,
then the pattern loop. -/
def extractVideoId_v1 (input : String) : Option String :=
  if input.length = 11 && input.data.all idChar then some input
  else firstMatch patternsV1 input

/-- `extractVideoId` of the later versions. -/
def extractVideoId (input : String) : Option String :=
  if input.length = 11 && input.data.all idChar then some input
  else firstMatch patternsLater input

/-! ### retryWithBackoff (the @distube version) -/

/-- Trace of one `retryWithBackoff` run: the outcome (`none` only when
the loop was never entered, i.e. `maxRetries = 0`, where the JS function
returns `undefined`), the delays awaited between calls, and how many
times `fn` was called. -/
structure RetryTrace (E A : Type) where
  outcome : Option (Except E A)
  delays : List Nat
  calls : Nat
deriving Repr

/-- The loop of `retryWithBackoff`: `i` is the loop counter and
`remaining` the number of iterations left (`maxRetries - i`); `results
j` is the outcome of the (j+1)-th call of `fn`. -/
def retryGo (results : Nat → Except E A) (baseDelay : Nat) (i : Nat) :
    Nat → RetryTrace E A
  | 0 => ⟨none, [], 0⟩
  | remaining + 1 =>
    match results i with
    | .ok v => ⟨some (.ok v), [], 1⟩
    | .error e =>
      if remaining = 0 then ⟨some (.error e), [], 1⟩
      else
        let t := retryGo results baseDelay (i + 1) remaining
        ⟨t.outcome, baseDelay * 2 ^ i :: t.delays, t.calls + 1⟩

/-- `retryWithBackoff(fn, maxRetries, baseDelay)`, with the successive
call outcomes of `fn` supplied by `results`. -/
def retryWithBackoff (results : Nat → Except E A) (maxRetries baseDelay : Nat) :
    RetryTrace E A :=
  retryGo results baseDelay 0 maxRetries

/-- The delay sequence the claim describes: `baseDelay * 2^i` before the
(i+1)-th retry. -/
def backoffDelays (baseDelay count : Nat) : List Nat :=
  (List.range count).map (fun i => baseDelay * 2 ^ i)

/-! ### The periodic cleanup timer -/

/-- Whether one pass of the cleanup timer deletes a file:
`now - stats.mtimeMs > maxAge`. -/
def fileExpired (maxAge now mtime : Int) : Bool :=
  now - mtime > maxAge

/-- One pass of the `setInterval` cleanup over the temp directory
(files with their mtimes): every expired file is unlinked, the rest are
kept. -/
def cleanupPass (maxAge now : Int) (files : List (String × Int)) :
    List (String × Int) :=
  files.filter (fun f => !fileExpired maxAge now f.2)

/-- Cleanup threshold of index.js (one hour). -/
def CLEANUP_MAX_AGE_V1 : Int := 3600000

/-- Cleanup threshold of the later versions (two hours). -/
def CLEANUP_MAX_AGE_LATER : Int := 7200000

/-! ### The `/play` handlers of the caching versions

Three caching versions exist: the first half of the ytdl file (ytdl-core
with a 2h cache), the @distube version (adds retry and user-agent
rotation), and the yt-dlp version (second half of the ytdl file).  The
download/conversion machinery is external; each handler takes an oracle
describing what the external world did and returns the response together
with the resulting temp directory and whether a download/conversion was
started. -/

/-- Observable outcome of one `/play` request.  `tempAfter` is the temp
directory after the request; `downloadStarted` records whether the
handler launched any audio download/conversion. -/
structure PlayOutcome where
  status : Nat
  success : Bool
  url : Option String
  errMsg : Option String
  tempAfter : List String
  downloadStarted : Bool
deriving DecidableEq, Repr

/-- Oracle for the ffmpeg download step of the first ytdl `/play`:
either the conversion resolved, or it rejected (`failed`), in which case
a piece of the output file may already have been written to disk. -/
inductive FfmpegResult where
  | converted : FfmpegResult
  | failed : (wrotePartFile : Bool) → FfmpegResult
deriving DecidableEq, Repr

/-- `/play` of the first ytdl version (caching, no retry):
cache check by `readdirSync(TEMP_DIR).filter(f => f.startsWith(videoId))`,
fresh name `videoId_<4 random hex bytes>.mp3`, then download and convert;
on a download error the partial file is unlinked when it exists. -/
def playV2 (host : String) (tempFiles : List String) (videoId : Option String)
    (rand : String) (infoOk : Bool) (dl : FfmpegResult) : PlayOutcome :=
  match videoId with
  | none => ⟨400, false, none, some "Video ID is required", tempFiles, false⟩
  | some vid =>
    match tempFiles.filter (fun f => jsStartsWith f vid) with
    | e0 :: _ =>
      ⟨200, true, some (host ++ "/stream/" ++ e0), none, tempFiles, false⟩
    | [] =>
      let filename := vid ++ "_" ++ rand ++ ".mp3"
      if !infoOk then
        ⟨404, false, none, some "Video unavailable", tempFiles, false⟩
      else
        match dl with
        | .converted =>
          ⟨200, true, some (host ++ "/stream/" ++ filename), none,
            tempFiles ++ [filename], true⟩
        | .failed wrote =>
          let mid := tempFiles ++ if wrote then [filename] else []
          let cleaned := if filename ∈ mid then mid.erase filename else mid
          ⟨500, false, none, some "Download failed", cleaned, true⟩

/-- Oracle for the ffmpeg download step of the @distube `/play`: the
conversion may resolve with or without the output file actually existing
(the handler checks `existsSync` afterwards and throws when it is
missing), or reject with a possible partial file. -/
inductive FfmpegResult3 where
  | converted : (fileCreated : Bool) → FfmpegResult3
  | failed : (wrotePartFile : Bool) → FfmpegResult3
deriving DecidableEq, Repr

/-- `/play` of the @distube version: like `playV2` plus the
`existsSync` verification after conversion; any failure inside the
download `try` unlinks the file when present and answers 500. -/
def playV2d (host : String) (tempFiles : List String) (videoId : Option String)
    (rand : String) (infoOk : Bool) (dl : FfmpegResult3) : PlayOutcome :=
  match videoId with
  | none => ⟨400, false, none, some "Video ID is required", tempFiles, false⟩
  | some vid =>
    match tempFiles.filter (fun f => jsStartsWith f vid) with
    | e0 :: _ =>
      ⟨200, true, some (host ++ "/stream/" ++ e0), none, tempFiles, false⟩
    | [] =>
      let filename := vid ++ "_" ++ rand ++ ".mp3"
      if !infoOk then
        ⟨404, false, none, some "Video unavailable", tempFiles, false⟩
      else
        match dl with
        | .converted true =>
          ⟨200, true, some (host ++ "/stream/" ++ filename), none,
            tempFiles ++ [filename], true⟩
        | .converted false =>
          -- 'File was not created successfully' is thrown and caught by
          -- the download catch; the file does not exist, so nothing is
          -- unlinked.
          let cleaned :=
            if filename ∈ tempFiles then tempFiles.erase filename else tempFiles
          ⟨500, false, none, some "Download failed", cleaned, true⟩
        | .failed wrote =>
          let mid := tempFiles ++ if wrote then [filename] else []
          let cleaned := if filename ∈ mid then mid.erase filename else mid
          ⟨500, false, none, some "Download failed", cleaned, true⟩

/-- Oracle for `downloadAudio` of the yt-dlp version: whether the
`yt-dlp -x ... -o "${filepath}"` invocation succeeded, and which files
it created at that output path — each created file is
`baseFilename ++ suffix` for a suffix in `createdSuffixes` (e.g. ".mp3",
or a leftover ".webm" of a failed conversion). -/
inductive YtDlpResult where
  | ok : (createdSuffixes : List String) → YtDlpResult
  | err : (createdSuffixes : List String) → YtDlpResult
deriving DecidableEq, Repr

/-- `/play` of the yt-dlp version: the id is extracted from the query
with `extractVideoId`; the cache check is as before; a fresh base name
without extension is used (`yt-dlp` adds ".mp3"); after a download
failure, or when the expected .mp3 is missing, every file whose name
starts with the base name is unlinked and the handler answers 500. -/
def playV3 (host : String) (tempFiles : List String) (input : Option String)
    (rand : String) (infoOk : Bool) (dl : YtDlpResult) : PlayOutcome :=
  match input with
  | none => ⟨400, false, none, some "Video ID or URL is required", tempFiles, false⟩
  | some inp =>
    if inp = "" then
      ⟨400, false, none, some "Video ID or URL is required", tempFiles, false⟩
    else
      match extractVideoId inp with
      | none => ⟨400, false, none, some "Invalid video ID or URL", tempFiles, false⟩
      | some vid =>
        match tempFiles.filter (fun f => jsStartsWith f vid) with
        | e0 :: _ =>
          ⟨200, true, some (host ++ "/stream/" ++ e0), none, tempFiles, false⟩
        | [] =>
          let baseFilename := vid ++ "_" ++ rand
          if !infoOk then
            ⟨404, false, none, some "Video unavailable", tempFiles, false⟩
          else
            match dl with
            | .ok suffixes =>
              let mid := tempFiles ++ suffixes.map (fun s => baseFilename ++ s)
              let actual := baseFilename ++ ".mp3"
              if actual ∈ mid then
                ⟨200, true, some (host ++ "/stream/" ++ actual), none, mid, true⟩
              else
                ⟨500, false, none, some "Download failed",
                  mid.filter (fun f => !jsStartsWith f baseFilename), true⟩
            | .err suffixes =>
              let mid := tempFiles ++ suffixes.map (fun s => baseFilename ++ s)
              ⟨500, false, none, some "Download failed",
                mid.filter (fun f => !jsStartsWith f baseFilename), true⟩

/-! ### The registered routes of each version -/

/-- A version of the service, identified by which file (or file half)
it comes from, with the `app.get` routes it registers, in source
order. -/
structure ServiceVersion where
  name : String
  routes : List String
deriving DecidableEq, Repr

/-- The early direct-streaming version: `/play` pipes ffmpeg straight
into the response and no `/stream/:filename` route is registered (the
route list printed by its `/` endpoint and startup log still mentions
one). -/
def directVersion : ServiceVersion :=
  ⟨"direct-streaming", ["/", "/search", "/play", "/health"]⟩

/-- index.js: first temp-file version. -/
def indexVersion : ServiceVersion :=
  ⟨"index.js", ["/", "/search", "/play", "/stream/:filename", "/health"]⟩

/-- First half of the ytdl file: caching ytdl-core version. -/
def ytdlCachingVersion : ServiceVersion :=
  ⟨"ytdl-caching", ["/", "/search", "/play", "/stream/:filename", "/health"]⟩

/-- Second half of the ytdl file: yt-dlp version (v3.0). -/
def ytDlpVersion : ServiceVersion :=
  ⟨"yt-dlp", ["/", "/search", "/play", "/stream/:filename", "/health"]⟩

/-- The @distube/ytdl-core version (v2.0.0). -/
def distubeVersion : ServiceVersion :=
  ⟨"distube", ["/", "/search", "/play", "/stream/:filename", "/health"]⟩

/-- All versions of the service found in the repository. -/
def allVersions : List ServiceVersion :=
  [directVersion, indexVersion, ytdlCachingVersion, ytDlpVersion, distubeVersion]

/-! ### Helper lemmas -/

theorem takeWhile_of_all {p : α → Bool} {l : List α} (h : l.all p = true) :
    l.takeWhile p = l := by
  induction l with
  | nil => rfl
  | cons a t ih =>
    simp only [List.all_cons, Bool.and_eq_true] at h
    simp [List.takeWhile_cons_of_pos h.1, ih h.2]

theorem digit_not_space {c : Char} (h : c.isDigit = true) : jsSpace c = false := by
  simp only [jsSpace, Bool.or_eq_false_iff, beq_eq_false_iff_ne, ne_eq]
  refine ⟨⟨⟨?_, ?_⟩, ?_⟩, ?_⟩ <;>
    (intro e; subst e; exact absurd h (by decide))

theorem digit_ne_plus {c : Char} (h : c.isDigit = true) : ¬ c = '+' := by
  intro e; subst e; exact absurd h (by decide)

theorem digit_ne_minus {c : Char} (h : c.isDigit = true) : ¬ c = '-' := by
  intro e; subst e; exact absurd h (by decide)

theorem jsParseInt_digits {l : List Char} (h0 : l ≠ [])
    (hd : l.all Char.isDigit = true) :
    jsParseInt l = JsNum.num (digitsVal l) := by
  cases l with
  | nil => exact absurd rfl h0
  | cons c rest =>
    have hall := hd
    simp only [List.all_cons, Bool.and_eq_true] at hd
    have hns : ¬ jsSpace c = true := by rw [digit_not_space hd.1]; exact Bool.false_ne_true
    have hdw : (c :: rest).dropWhile jsSpace = c :: rest :=
      List.dropWhile_cons_of_neg hns
    rw [jsParseInt, hdw]
    simp only [jsParseIntSigned, if_neg (digit_ne_plus hd.1),
      if_neg (digit_ne_minus hd.1)]
    rw [parseDigits, takeWhile_of_all hall]
    simp

theorem mem_ne_of_all_digits {l : List Char} (hd : l.all Char.isDigit = true) :
    '-' ∉ l := by
  intro hm
  have := List.all_eq_true.mp hd _ hm
  exact absurd this (by decide)

theorem removeFirst_pre (pat r : List Char) (h : pat ≠ []) :
    removeFirst pat (pat ++ r) = r := by
  cases pat with
  | nil => exact absurd rfl h
  | cons p ps =>
    have hp : (p :: ps).isPrefixOf ((p :: ps) ++ r) = true := by
      simp [List.isPrefixOf_iff_prefix]
    rw [List.cons_append]
    simp only [removeFirst]
    rw [← List.cons_append, if_pos hp, List.drop_left]

theorem splitChar_no_sep {sep : Char} {l : List Char} (h : sep ∉ l) :
    splitChar sep l = [l] := by
  induction l with
  | nil => rfl
  | cons c rest ih =>
    have hc : ¬ c = sep := fun e => h (e ▸ List.mem_cons_self _ _)
    have ih' := ih (fun hm => h (List.mem_cons_of_mem _ hm))
    simp [splitChar, hc, ih']

theorem splitChar_append_sep {sep : Char} (a b : List Char) (ha : sep ∉ a) :
    splitChar sep (a ++ sep :: b) = a :: splitChar sep b := by
  induction a with
  | nil => simp [splitChar]
  | cons c rest ih =>
    have hc : ¬ c = sep := fun e => ha (e ▸ List.mem_cons_self _ _)
    have ih' := ih (fun hm => ha (List.mem_cons_of_mem _ hm))
    rw [List.cons_append]
    simp [splitChar, hc, ih']

/-! ### C6: formatDuration -/

theorem padStart2_eq_twoDigit :
    ∀ m, m < 60 →
      padStart2 (toString m) = (if m < 10 then "0" ++ toString m else toString m) := by
  decide

/-- C6: for every nonnegative integer s, formatDuration(s) returns
'H:MM:SS' when s >= 3600 (H = floor(s/3600) unpadded,
MM = floor((s mod 3600)/60) and SS = s mod 60 zero-padded to two digits)
and otherwise 'M:SS' with M = floor(s/60) unpadded and SS = s mod 60
zero-padded to two digits. -/
theorem formatDuration_correct (s : Nat) : formatDuration s = formatDurationSpec s := by
  have hsecs : s % 60 < 60 := Nat.mod_lt _ (by omega)
  have hmins : s % 3600 / 60 < 60 :=
    (Nat.div_lt_iff_lt_mul (by omega)).mpr (Nat.mod_lt _ (by omega))
  by_cases h : 3600 ≤ s
  · have hpos : s / 3600 > 0 := Nat.div_pos h (by omega)
    simp only [formatDuration, formatDurationSpec, if_pos hpos, if_pos h,
      padStart2_eq_twoDigit _ hmins, padStart2_eq_twoDigit _ hsecs]
  · have hz : s / 3600 = 0 := Nat.div_eq_of_lt (by omega)
    have hmod : s % 3600 = s := Nat.mod_eq_of_lt (by omega)
    simp only [formatDuration, formatDurationSpec, hz, if_neg h,
      padStart2_eq_twoDigit _ hsecs, hmod]
    simp

/-! ### C7: the periodic cleanup pass -/

/-- C7: each pass of the cleanup timer deletes from the temp directory
exactly those files whose mtime age exceeds the version's threshold
(3600000 ms in index.js, 7200000 ms in the later versions) and keeps
every file at or under the threshold. -/
theorem cleanupPass_exact (now : Int) (files : List (String × Int)) (f : String × Int) :
    (f ∈ cleanupPass CLEANUP_MAX_AGE_V1 now files ↔ f ∈ files ∧ now - f.2 ≤ 3600000) ∧
    (f ∈ cleanupPass CLEANUP_MAX_AGE_LATER now files ↔ f ∈ files ∧ now - f.2 ≤ 7200000) := by
  constructor <;>
    simp [cleanupPass, List.mem_filter, fileExpired,
      CLEANUP_MAX_AGE_V1, CLEANUP_MAX_AGE_LATER, Int.not_lt]

/-! ### C2: the endpoints of each version -/

/-- C2 counterexample: it is not true that every version implements all
of /search, /play and /stream/:filename — the direct-streaming version
registers no /stream/:filename route. -/
theorem version_endpoints_refuted :
    ¬ (∀ v ∈ allVersions, "/search" ∈ v.routes ∧ "/play" ∈ v.routes ∧
        "/stream/:filename" ∈ v.routes) := by
  decide

/-- C2 amended: every version implements /search and /play, and every
version except the direct-streaming one (which pipes audio straight out
of /play) also implements /stream/:filename. -/
theorem version_endpoints (v : ServiceVersion) (hv : v ∈ allVersions) :
    "/search" ∈ v.routes ∧ "/play" ∈ v.routes ∧
      (v.name ≠ "direct-streaming" → "/stream/:filename" ∈ v.routes) := by
  have h : ∀ v ∈ allVersions, "/search" ∈ v.routes ∧ "/play" ∈ v.routes ∧
      (v.name ≠ "direct-streaming" → "/stream/:filename" ∈ v.routes) := by decide
  exact h v hv

/-- C2 witness: the claim instantiated at index.js. -/
theorem version_endpoints_witness :
    "/search" ∈ indexVersion.routes ∧ "/play" ∈ indexVersion.routes ∧
      (indexVersion.name ≠ "direct-streaming" → "/stream/:filename" ∈ indexVersion.routes) :=
  version_endpoints indexVersion (by decide)

/-! ### C1: range serving in `/stream/:filename` -/

theorem parseRange_digits (sa se : List Char) (n : Nat) (hne : sa ≠ [])
    (hsa : sa.all Char.isDigit = true) (hse : se.all Char.isDigit = true) :
    parseRange (String.mk ("bytes=".data ++ sa ++ '-' :: se)) n =
      (JsNum.num (digitsVal sa),
       JsNum.num (if se = [] then (n : Int) - 1 else (digitsVal se : Int))) := by
  unfold parseRange
  have hdata : (String.mk ("bytes=".data ++ sa ++ '-' :: se)).data =
      "bytes=".data ++ (sa ++ '-' :: se) := rfl
  rw [hdata, removeFirst_pre _ _ (by decide),
    splitChar_append_sep _ _ (mem_ne_of_all_digits hsa)]
  cases se with
  | nil =>
    simp only [splitChar, List.headD_cons, List.get?_cons_succ, List.get?_cons_zero,
      List.isEmpty_nil, if_true]
    rw [jsParseInt_digits hne hsa]
  | cons c rest =>
    rw [splitChar_no_sep (mem_ne_of_all_digits hse)]
    simp only [List.headD_cons, List.get?_cons_succ, List.get?_cons_zero,
      List.isEmpty_cons, if_false]
    rw [jsParseInt_digits hne hsa, jsParseInt_digits (by simp) hse]
    simp

/-- C1 counterexample: a Range header whose parsed start exceeds its
parsed end — here bytes=10-5 against an existing 1000-byte file — is not
served with 206: `fs.createReadStream(filepath, {start: 10, end: 5})`
throws ERR_OUT_OF_RANGE synchronously, before `writeHead`, and the error
middleware answers 500, so the claim's 206 guarantee for every Range
header fails. -/
theorem stream_serving_counterexample :
    streamHandler false [("c.mp3", 1000)] "c.mp3" (some "bytes=10-5") =
      .jsonError 500 "Internal server error" ∧
    ¬ (streamHandler false [("c.mp3", 1000)] "c.mp3" (some "bytes=10-5")).status = 206 := by
  decide

/-- C1 amended: for a GET /stream request for an existing file of size n
whose Range header has the form 'bytes=start-end' (end possibly empty
and then defaulting to n-1) with offsets accepted by createReadStream's
validation (0 <= start <= end), the handler serves bytes start..end of
the file with status 206, Content-Range 'bytes start-end/n',
Content-Length end-start+1, Content-Type audio/mpeg and Accept-Ranges
bytes; when the parsed start exceeds the parsed end, createReadStream
throws before any header is written and the error middleware answers
500; with no Range header the handler serves the whole file with status
200, Content-Length n and the same Content-Type and Accept-Ranges. -/
theorem stream_serving (cc : Bool) (files : List (String × Nat))
    (filename : String) (n : Nat)
    (hname : badFilename filename = false)
    (hfile : files.lookup filename = some n) :
    (∀ sa se : List Char, sa ≠ [] → sa.all Char.isDigit = true →
      se.all Char.isDigit = true →
      (digitsVal sa : Int) ≤ (if se = [] then (n : Int) - 1 else (digitsVal se : Int)) →
      streamHandler cc files filename
          (some (String.mk ("bytes=".data ++ sa ++ '-' :: se))) =
        .fileStream (tempJoin filename)
          ⟨206,
           some ("bytes " ++ toString ((digitsVal sa : Int)) ++ "-" ++
             toString (if se = [] then (n : Int) - 1 else (digitsVal se : Int)) ++
             "/" ++ toString n),
           some "bytes",
           some (JsNum.num
             ((if se = [] then (n : Int) - 1 else (digitsVal se : Int)) -
               (digitsVal sa : Int) + 1)),
           some "audio/mpeg",
           (if cc then some "public, max-age=3600" else none)⟩
          (some (JsNum.num (digitsVal sa),
            JsNum.num (if se = [] then (n : Int) - 1 else (digitsVal se : Int))))) ∧
    (∀ sa se : List Char, sa ≠ [] → sa.all Char.isDigit = true →
      se.all Char.isDigit = true →
      ¬ ((digitsVal sa : Int) ≤
          (if se = [] then (n : Int) - 1 else (digitsVal se : Int))) →
      streamHandler cc files filename
          (some (String.mk ("bytes=".data ++ sa ++ '-' :: se))) =
        .jsonError 500 "Internal server error") ∧
    streamHandler cc files filename none =
      .fileStream (tempJoin filename)
        ⟨200, none, some "bytes", some (JsNum.num n), some "audio/mpeg",
         (if cc then some "public, max-age=3600" else none)⟩ none := by
  have hrne : ∀ sa se : List Char,
      ¬ String.mk ("bytes=".data ++ sa ++ '-' :: se) = "" := by
    intro sa se e
    have h' : ("bytes=".data ++ sa ++ '-' :: se) = "".data := congrArg String.data e
    simp at h'
  refine ⟨?_, ?_, ?_⟩
  · intro sa se hne hsa hse hok
    have hvalid : validReadRange (JsNum.num (digitsVal sa))
        (JsNum.num (if se = [] then (n : Int) - 1 else (digitsVal se : Int))) = true := by
      simp only [validReadRange, Bool.and_eq_true, decide_eq_true_eq]
      by_cases h0 : se = [] <;>
        simp only [h0, if_true, if_false] at hok ⊢ <;> omega
    simp only [streamHandler, hname, Bool.false_eq_true, if_false, hfile,
      if_neg (hrne sa se), parseRange_digits sa se n hne hsa hse]
    simp [hvalid, JsNum.sub, JsNum.add, JsNum.toStr]
  · intro sa se hne hsa hse hok
    have hinvalid : validReadRange (JsNum.num (digitsVal sa))
        (JsNum.num (if se = [] then (n : Int) - 1 else (digitsVal se : Int))) = false := by
      rw [← Bool.not_eq_true]
      simp only [validReadRange, Bool.and_eq_true, decide_eq_true_eq]
      by_cases h0 : se = [] <;>
        simp only [h0, if_true, if_false] at hok ⊢ <;> omega
    simp only [streamHandler, hname, Bool.false_eq_true, if_false, hfile,
      if_neg (hrne sa se), parseRange_digits sa se n hne hsa hse]
    simp [hinvalid]
  · simp only [streamHandler, hname, Bool.false_eq_true, if_false, hfile]

/-- C1 witness: a concrete satisfiable range request and a concrete
whole-file request against a 1000-byte file. -/
theorem stream_serving_witness :
    streamHandler false [("a.mp3", 1000)] "a.mp3" (some "bytes=5-10") =
      .fileStream (tempJoin "a.mp3")
        ⟨206, some "bytes 5-10/1000", some "bytes", some (JsNum.num 6),
         some "audio/mpeg", none⟩
        (some (JsNum.num 5, JsNum.num 10)) ∧
    streamHandler false [("a.mp3", 1000)] "a.mp3" none =
      .fileStream (tempJoin "a.mp3")
        ⟨200, none, some "bytes", some (JsNum.num 1000), some "audio/mpeg", none⟩
        none := by
  have h := stream_serving false [("a.mp3", 1000)] "a.mp3" 1000 (by decide) (by decide)
  refine ⟨?_, h.2.2⟩
  have h1 := h.1 "5".data "10".data (by decide) (by decide) (by decide) (by decide)
  have hstr : String.mk ("bytes=".data ++ "5".data ++ '-' :: "10".data) =
      "bytes=5-10" := by decide
  rw [hstr] at h1
  exact h1.trans (by decide)

/-! ### C8: the traversal guard of `/stream/:filename` -/

/-- C8: a /stream request whose filename contains '..', '/' or '\\' is
answered 400 'Invalid filename' before any filesystem access (the
response does not depend on the temp directory's contents), and any file
the handler ever streams is TEMP_DIR/<filename> for a filename free of
'..', '/' and '\\' — a direct child of the temp directory. -/
theorem stream_no_traversal (cc : Bool) :
    (∀ (files files' : List (String × Nat)) (filename : String) (range : Option String),
        badFilename filename = true →
        streamHandler cc files filename range = .jsonError 400 "Invalid filename" ∧
        streamHandler cc files filename range = streamHandler cc files' filename range) ∧
    (∀ (files : List (String × Nat)) (filename : String) (range : Option String)
        (p : String) (hd : StreamHead) (rr : Option (JsNum × JsNum)),
        streamHandler cc files filename range = .fileStream p hd rr →
        p = tempJoin filename ∧ hasSub "..".data filename.data = false ∧
          filename.data.contains '/' = false ∧ filename.data.contains '\\' = false) := by
  constructor
  · intro files files' filename range hbad
    constructor <;> simp [streamHandler, hbad]
  · intro files filename range p hd rr heq
    by_cases hbad : badFilename filename = true
    · simp [streamHandler, hbad] at heq
    · rw [Bool.not_eq_true] at hbad
      have hcomp := hbad
      simp only [badFilename, Bool.or_eq_false_iff] at hcomp
      refine ⟨?_, hcomp.1.1, hcomp.1.2, hcomp.2⟩
      unfold streamHandler at heq
      rw [hbad] at heq
      simp only [Bool.false_eq_true, if_false] at heq
      split at heq
      · exact absurd heq (by simp)
      · split at heq
        · split at heq
          · injection heq with h1
            exact h1.symm
          · split at heq
            · injection heq with h1
              exact h1.symm
            · exact absurd heq (by simp)
        · injection heq with h1
          exact h1.symm

/-- C8 witness: a traversal attempt is rejected with 400. -/
theorem stream_no_traversal_witness :
    streamHandler false [] "../../etc/passwd" none = .jsonError 400 "Invalid filename" :=
  ((stream_no_traversal false).1 [] [("x", 1)] "../../etc/passwd" none (by decide)).1

/-! ### C9: the range branch performs no validation of its own -/

/-- C9 counterexample: two requests for an existing file that carry a
Range header and are not answered 206 — an empty header value is falsy
for `if (range)` and served 200 whole-file, and the suffix form
bytes=-500 parses to a NaN start on which `fs.createReadStream` throws
synchronously, which the error middleware answers with 500. -/
theorem stream_range_206_counterexample :
    (streamHandler false [("a.mp3", 1000)] "a.mp3" (some "")).status = 200 ∧
    ¬ (streamHandler false [("a.mp3", 1000)] "a.mp3" (some "")).status = 206 ∧
    (streamHandler false [("a.mp3", 1000)] "a.mp3" (some "bytes=-500")).status = 500 ∧
    ¬ (streamHandler false [("a.mp3", 1000)] "a.mp3"
        (some "bytes=-500")).status = 206 := by
  decide

/-- C9 amended: the range branch validates nothing itself — the only
check a range request meets is createReadStream's synchronous option
validation (integer offsets >= 0 with start <= end), so for an existing
file a nonempty Range header is answered 206 exactly when its parsed
offsets pass that validation and 500 (via the throw and the error
middleware) otherwise; no request is ever answered 416; the offsets are
never compared against fileSize, so a valid interval lying entirely
beyond the end of the file still draws a 206 (demonstrated concretely),
and the correct-interval guarantee holds only for bytes=a- or bytes=a-b
with 0 <= a <= b <= fileSize-1. -/
theorem stream_range_no_validation (cc : Bool) :
    (∀ (files : List (String × Nat)) (filename r : String) (n : Nat),
        badFilename filename = false → files.lookup filename = some n → ¬ r = "" →
        ((streamHandler cc files filename (some r)).status = 206 ↔
          validReadRange (parseRange r n).1 (parseRange r n).2 = true) ∧
        ((streamHandler cc files filename (some r)).status = 206 ∨
          (streamHandler cc files filename (some r)).status = 500)) ∧
    (∀ (files : List (String × Nat)) (filename : String) (range : Option String),
        ¬ (streamHandler cc files filename range).status = 416) ∧
    (streamHandler false [("a.mp3", 1000)] "a.mp3" (some "bytes=-500")).status = 500 ∧
    (streamHandler false [("a.mp3", 1000)] "a.mp3" (some "bytes=2000-")).status = 500 ∧
    streamHandler false [("a.mp3", 1000)] "a.mp3" (some "bytes=2000-3000") =
      .fileStream (tempJoin "a.mp3")
        ⟨206, some "bytes 2000-3000/1000", some "bytes", some (JsNum.num 1001),
         some "audio/mpeg", none⟩ (some (JsNum.num 2000, JsNum.num 3000)) := by
  refine ⟨?_, ?_, by decide, by decide, by decide⟩
  · intro files filename r n hname hfile hr
    by_cases hv : validReadRange (parseRange r n).1 (parseRange r n).2 = true
    · simp [streamHandler, hname, hfile, hr, hv, StreamResponse.status]
    · simp [streamHandler, hname, hfile, hr, hv, StreamResponse.status]
  · intro files filename range
    unfold streamHandler
    split
    · simp [StreamResponse.status]
    · cases files.lookup filename with
      | none => simp [StreamResponse.status]
      | some m =>
        cases range with
        | none => simp [StreamResponse.status]
        | some r =>
          by_cases hr : r = ""
          · simp [hr, StreamResponse.status]
          · cases hv : validReadRange (parseRange r m).1 (parseRange r m).2 <;>
              simp [hr, hv, StreamResponse.status]

/-- C9 witness: a valid open-ended Range header draws a 206, and a
request with a garbage Range header never draws 416. -/
theorem stream_range_no_validation_witness :
    (streamHandler true [("b.mp3", 50)] "b.mp3" (some "bytes=0-")).status = 206 ∧
    ¬ (streamHandler true [("b.mp3", 50)] "b.mp3" (some "weird")).status = 416 := by
  have h := stream_range_no_validation true
  exact ⟨((h.1 [("b.mp3", 50)] "b.mp3" "bytes=0-" 50 (by decide) (by decide)
            (by decide)).1).mpr (by decide),
         h.2.1 [("b.mp3", 50)] "b.mp3" (some "weird")⟩

/-! ### Prefix lemmas for the cache check of `/play` -/

theorem jsStartsWith_append (pre' x : String) : jsStartsWith (pre' ++ x) pre' = true := by
  simp [jsStartsWith, List.isPrefixOf_iff_prefix]

theorem jsStartsWith_mono {f vid y : String}
    (h : jsStartsWith f (vid ++ y) = true) : jsStartsWith f vid = true := by
  simp only [jsStartsWith, List.isPrefixOf_iff_prefix, String.data_append] at h ⊢
  exact (List.prefix_append _ _).trans h

theorem not_mem_of_cache_miss {tempFiles : List String} {vid : String}
    (hmiss : tempFiles.filter (fun f => jsStartsWith f vid) = [])
    {f : String} (hf : f ∈ tempFiles) : jsStartsWith f vid = false := by
  have h := List.filter_eq_nil_iff.mp hmiss f hf
  simpa using h

theorem fresh_not_mem {tempFiles : List String} {vid : String} (y : String)
    (hmiss : tempFiles.filter (fun f => jsStartsWith f vid) = []) :
    (vid ++ y) ∉ tempFiles := by
  intro hm
  have h1 := not_mem_of_cache_miss hmiss hm
  rw [jsStartsWith_append] at h1
  cases h1

theorem no_base_in_temp {tempFiles : List String} {vid : String} (y : String)
    (hmiss : tempFiles.filter (fun f => jsStartsWith f vid) = [])
    {f : String} (hf : f ∈ tempFiles) : jsStartsWith f (vid ++ y) = false := by
  cases hsw : jsStartsWith f (vid ++ y)
  · rfl
  · have h2 := jsStartsWith_mono hsw
    rw [not_mem_of_cache_miss hmiss hf] at h2
    cases h2

/-! ### C3: a cache hit serves the cached file and changes nothing -/

/-- C3: in the caching versions, when some temp file starts with the
requested video id, /play answers success:true with the stream URL of
the first such file, starts no download or conversion, and leaves the
temp directory unchanged. -/
theorem play_cached_hit (host : String) (tempFiles : List String)
    (vid rand : String) (infoOk : Bool) (e0 : String) (rest : List String)
    (hcache : tempFiles.filter (fun f => jsStartsWith f vid) = e0 :: rest) :
    (∀ dl : FfmpegResult, playV2 host tempFiles (some vid) rand infoOk dl =
      ⟨200, true, some (host ++ "/stream/" ++ e0), none, tempFiles, false⟩) ∧
    (∀ dl : FfmpegResult3, playV2d host tempFiles (some vid) rand infoOk dl =
      ⟨200, true, some (host ++ "/stream/" ++ e0), none, tempFiles, false⟩) ∧
    (∀ (inp : String) (dl : YtDlpResult), ¬ inp = "" →
      extractVideoId inp = some vid →
      playV3 host tempFiles (some inp) rand infoOk dl =
        ⟨200, true, some (host ++ "/stream/" ++ e0), none, tempFiles, false⟩) := by
  refine ⟨fun dl => ?_, fun dl => ?_, fun inp dl hne hex => ?_⟩
  · simp only [playV2, hcache]
  · simp only [playV2d, hcache]
  · simp only [playV3, if_neg hne, hex, hcache]

/-- C3 witness: a cache hit against a one-file temp directory. -/
theorem play_cached_hit_witness :
    playV2 "http://h" ["abc_11.mp3"] (some "abc") "22" true (.failed true) =
      ⟨200, true, some "http://h/stream/abc_11.mp3", none, ["abc_11.mp3"], false⟩ :=
  (play_cached_hit "http://h" ["abc_11.mp3"] "abc" "22" true "abc_11.mp3" []
    (by decide)).1 (.failed true)

/-! ### C10: a failed download restores the temp directory -/

/-- C10: in the caching versions, when the download/conversion step
fails, /play deletes every partially written file of that request and
answers 500 'Download failed', leaving the temp directory exactly as it
was. -/
theorem play_failure_frame (host : String) (tempFiles : List String)
    (vid rand : String)
    (hmiss : tempFiles.filter (fun f => jsStartsWith f vid) = []) :
    (∀ wrote, playV2 host tempFiles (some vid) rand true (.failed wrote) =
      ⟨500, false, none, some "Download failed", tempFiles, true⟩) ∧
    (∀ wrote, playV2d host tempFiles (some vid) rand true (.failed wrote) =
      ⟨500, false, none, some "Download failed", tempFiles, true⟩) ∧
    (playV2d host tempFiles (some vid) rand true (.converted false) =
      ⟨500, false, none, some "Download failed", tempFiles, true⟩) ∧
    (∀ (inp : String) (suffixes : List String), ¬ inp = "" →
      extractVideoId inp = some vid →
      playV3 host tempFiles (some inp) rand true (.err suffixes) =
        ⟨500, false, none, some "Download failed", tempFiles, true⟩) ∧
    (∀ (inp : String) (suffixes : List String), ¬ inp = "" →
      extractVideoId inp = some vid → ".mp3" ∉ suffixes →
      playV3 host tempFiles (some inp) rand true (.ok suffixes) =
        ⟨500, false, none, some "Download failed", tempFiles, true⟩) := by
  have hfresh : (vid ++ "_" ++ rand ++ ".mp3") ∉ tempFiles := by
    rw [String.append_assoc, String.append_assoc]
    exact fresh_not_mem _ hmiss
  have hclean : ∀ wrote : Bool,
      (if vid ++ "_" ++ rand ++ ".mp3" ∈
          tempFiles ++ (if wrote then [vid ++ "_" ++ rand ++ ".mp3"] else []) then
        (tempFiles ++ (if wrote then [vid ++ "_" ++ rand ++ ".mp3"] else [])).erase
          (vid ++ "_" ++ rand ++ ".mp3")
      else tempFiles ++ (if wrote then [vid ++ "_" ++ rand ++ ".mp3"] else [])) =
        tempFiles := by
    intro wrote
    cases wrote
    · simp [hfresh]
    · simp [List.erase_append_right _ hfresh, List.erase_cons_head]
  have hfilterTemp :
      tempFiles.filter (fun f => !jsStartsWith f (vid ++ "_" ++ rand)) = tempFiles := by
    rw [List.filter_eq_self]
    intro f hf
    rw [String.append_assoc, no_base_in_temp _ hmiss hf]
    rfl
  have hfilterMap : ∀ suffixes : List String,
      (suffixes.map (fun s => vid ++ "_" ++ rand ++ s)).filter
        (fun f => !jsStartsWith f (vid ++ "_" ++ rand)) = [] := by
    intro suffixes
    rw [List.filter_eq_nil_iff]
    intro a ha
    obtain ⟨s, -, rfl⟩ := List.mem_map.mp ha
    rw [jsStartsWith_append]
    simp
  refine ⟨fun wrote => ?_, fun wrote => ?_, ?_, fun inp suffixes hne hex => ?_,
    fun inp suffixes hne hex hnomp3 => ?_⟩
  · simp only [playV2, hmiss, Bool.not_true, Bool.false_eq_true, if_false]
    rw [hclean wrote]
  · simp only [playV2d, hmiss, Bool.not_true, Bool.false_eq_true, if_false]
    rw [hclean wrote]
  · simp only [playV2d, hmiss, Bool.not_true, Bool.false_eq_true, if_false, if_neg hfresh]
  · simp only [playV3, if_neg hne, hex, hmiss, Bool.not_true, Bool.false_eq_true, if_false]
    rw [List.filter_append, hfilterTemp, hfilterMap, List.append_nil]
  · have hactual : (vid ++ "_" ++ rand ++ ".mp3") ∉
        tempFiles ++ suffixes.map (fun s => vid ++ "_" ++ rand ++ s) := by
      rw [List.mem_append]
      rintro (hmem | hmem)
      · exact hfresh hmem
      · obtain ⟨s, hs, he⟩ := List.mem_map.mp hmem
        have : s = ".mp3" := by
          have h2 := congrArg String.data he
          simp only [String.data_append] at h2
          exact congrArg String.mk (List.append_cancel_left h2)
        exact hnomp3 (this ▸ hs)
    simp only [playV3, if_neg hne, hex, hmiss, Bool.not_true, Bool.false_eq_true, if_false,
      if_neg hactual]
    rw [List.filter_append, hfilterTemp, hfilterMap, List.append_nil]

/-- C10 witness: a failed ffmpeg conversion against a one-file temp
directory leaves it untouched. -/
theorem play_failure_frame_witness :
    playV2 "http://h" ["zzz.mp3"] (some "abc") "r1" true (.failed true) =
      ⟨500, false, none, some "Download failed", ["zzz.mp3"], true⟩ :=
  (play_failure_frame "http://h" ["zzz.mp3"] "abc" "r1" (by decide)).1 true

/-! ### C4: retryWithBackoff -/

theorem retryGo_spec (results : Nat → Except E A) (b : Nat) :
    ∀ r i : Nat, 1 ≤ r →
      (1 ≤ (retryGo results b i r).calls ∧ (retryGo results b i r).calls ≤ r) ∧
      ((∀ j, j < r → ∃ e, results (i + j) = .error e) →
        (retryGo results b i r).calls = r ∧
        (retryGo results b i r).outcome = some (results (i + (r - 1)))) ∧
      (∀ j v, j < r → results (i + j) = .ok v →
        (∀ k, k < j → ∃ e, results (i + k) = .error e) →
        (retryGo results b i r).outcome = some (.ok v) ∧
        (retryGo results b i r).calls = j + 1) ∧
      (retryGo results b i r).delays =
        (List.range ((retryGo results b i r).calls - 1)).map
          (fun k => b * 2 ^ (i + k)) := by
  intro r
  induction r with
  | zero => intro i h; exact absurd h (by omega)
  | succ r' ih =>
    intro i _
    cases hres : results i with
    | ok v =>
      have hgo : retryGo results b i (r' + 1) = ⟨some (.ok v), [], 1⟩ := by
        simp [retryGo, hres]
      rw [hgo]
      dsimp only
      refine ⟨⟨le_refl 1, by omega⟩, fun hall => ?_, fun j v' hj hok hpre => ?_, by simp⟩
      · obtain ⟨e, he⟩ := hall 0 (by omega)
        rw [Nat.add_zero, hres] at he
        cases he
      · cases j with
        | zero =>
          rw [Nat.add_zero, hres] at hok
          injection hok with hv
          exact ⟨by rw [hv], rfl⟩
        | succ j' =>
          obtain ⟨e, he⟩ := hpre 0 (by omega)
          rw [Nat.add_zero, hres] at he
          cases he
    | error e =>
      by_cases hr0 : r' = 0
      · subst hr0
        have hgo : retryGo results b i 1 = ⟨some (.error e), [], 1⟩ := by
          simp [retryGo, hres]
        rw [hgo]
        dsimp only
        refine ⟨⟨le_refl 1, le_refl 1⟩, fun hall => ⟨rfl, ?_⟩,
          fun j v' hj hok hpre => ?_, by simp⟩
        · rw [Nat.add_zero, hres]
        · have hj0 : j = 0 := by omega
          subst hj0
          rw [Nat.add_zero, hres] at hok
          cases hok
      · have hgo : retryGo results b i (r' + 1) =
            ⟨(retryGo results b (i + 1) r').outcome,
             b * 2 ^ i :: (retryGo results b (i + 1) r').delays,
             (retryGo results b (i + 1) r').calls + 1⟩ := by
          simp [retryGo, hres, hr0]
        obtain ⟨⟨hc1, hc2⟩, hall', hfirst', hdel'⟩ := ih (i + 1) (by omega)
        rw [hgo]
        dsimp only
        refine ⟨⟨by omega, by omega⟩, fun hall => ?_, fun j v' hj hok hpre => ?_, ?_⟩
        · have hall2 : ∀ j, j < r' → ∃ e', results (i + 1 + j) = .error e' := by
            intro j hj
            obtain ⟨e', he'⟩ := hall (j + 1) (by omega)
            refine ⟨e', ?_⟩
            rwa [show i + (j + 1) = i + 1 + j by omega] at he'
          obtain ⟨hcalls, hout⟩ := hall' hall2
          refine ⟨by omega, ?_⟩
          rw [hout]
          congr 1
          congr 1
          omega
        · cases j with
          | zero =>
            rw [Nat.add_zero, hres] at hok
            cases hok
          | succ j' =>
            have hok' : results (i + 1 + j') = .ok v' := by
              rwa [show i + (j' + 1) = i + 1 + j' by omega] at hok
            have hpre' : ∀ k, k < j' → ∃ e', results (i + 1 + k) = .error e' := by
              intro k hk
              obtain ⟨e', he'⟩ := hpre (k + 1) (by omega)
              refine ⟨e', ?_⟩
              rwa [show i + (k + 1) = i + 1 + k by omega] at he'
            obtain ⟨ho, hc⟩ := hfirst' j' v' (by omega) hok' hpre'
            exact ⟨ho, by omega⟩
        · rw [hdel']
          have hm : (retryGo results b (i + 1) r').calls + 1 - 1 =
              ((retryGo results b (i + 1) r').calls - 1) + 1 := by omega
          rw [hm, List.range_succ_eq_map, List.map_cons, List.map_map]
          congr 1
          apply List.map_congr_left
          intro k _
          simp only [Function.comp_apply, Nat.succ_eq_add_one]
          rw [show i + 1 + k = i + (k + 1) from by omega]

/-- C4: retryWithBackoff(fn, maxRetries, baseDelay) calls fn at most
maxRetries times, returns the value of the first call that succeeds,
throws the error of the last call when all maxRetries calls fail, and
waits baseDelay * 2^i before the (i+1)-th retry. -/
theorem retryWithBackoff_spec (results : Nat → Except E A)
    (maxRetries baseDelay : Nat) (h : 1 ≤ maxRetries) :
    (retryWithBackoff results maxRetries baseDelay).calls ≤ maxRetries ∧
    (∀ j v, j < maxRetries → results j = .ok v →
      (∀ k, k < j → ∃ e, results k = .error e) →
      (retryWithBackoff results maxRetries baseDelay).outcome = some (.ok v) ∧
      (retryWithBackoff results maxRetries baseDelay).calls = j + 1) ∧
    ((∀ j, j < maxRetries → ∃ e, results j = .error e) →
      (retryWithBackoff results maxRetries baseDelay).calls = maxRetries ∧
      (retryWithBackoff results maxRetries baseDelay).outcome =
        some (results (maxRetries - 1))) ∧
    (retryWithBackoff results maxRetries baseDelay).delays =
      backoffDelays baseDelay
        ((retryWithBackoff results maxRetries baseDelay).calls - 1) := by
  obtain ⟨⟨-, hc⟩, hall, hfirst, hdel⟩ := retryGo_spec results baseDelay maxRetries 0 h
  refine ⟨hc, ?_, ?_, ?_⟩
  · intro j v hj hok hpre
    exact hfirst j v hj (by rwa [Nat.zero_add]) (by
      intro k hk
      obtain ⟨e, he⟩ := hpre k hk
      exact ⟨e, by rwa [Nat.zero_add]⟩)
  · intro hallfail
    obtain ⟨h1, h2⟩ := hall (by
      intro j hj
      obtain ⟨e, he⟩ := hallfail j hj
      exact ⟨e, by rwa [Nat.zero_add]⟩)
    exact ⟨h1, by rwa [Nat.zero_add] at h2⟩
  · show (retryGo results baseDelay 0 maxRetries).delays =
      backoffDelays baseDelay ((retryGo results baseDelay 0 maxRetries).calls - 1)
    rw [hdel]
    unfold backoffDelays
    apply List.map_congr_left
    intro k _
    rw [Nat.zero_add]

/-- C4 witness: a run whose first call fails and second call succeeds
returns the second call's value after one backoff delay of
baseDelay * 2^0. -/
theorem retryWithBackoff_spec_witness :
    (retryWithBackoff
        (fun j => if j = 0 then (.error "e0" : Except String Nat) else .ok 42)
        3 100).outcome = some (.ok 42) ∧
    (retryWithBackoff
        (fun j => if j = 0 then (.error "e0" : Except String Nat) else .ok 42)
        3 100).calls = 2 ∧
    (retryWithBackoff
        (fun j => if j = 0 then (.error "e0" : Except String Nat) else .ok 42)
        3 100).delays = backoffDelays 100 1 := by
  obtain ⟨-, hfirst, -, hdel⟩ := retryWithBackoff_spec
    (fun j => if j = 0 then (.error "e0" : Except String Nat) else .ok 42)
    3 100 (by omega)
  obtain ⟨ho, hc⟩ := hfirst 1 42 (by omega) rfl (by
    intro k hk
    have hk0 : k = 0 := by omega
    subst hk0
    exact ⟨"e0", rfl⟩)
  refine ⟨ho, hc, ?_⟩
  rw [hdel, hc]

/-! ### C5: extractVideoId -/

theorem captureAt_iff {alt s v : List Char} :
    captureAt alt s = some v ↔
      alt.isPrefixOf s = true ∧ v = (s.drop alt.length).take 11 ∧
        v.length = 11 ∧ v.all idChar = true := by
  unfold captureAt
  by_cases h1 : alt.isPrefixOf s = true
  · rw [if_pos h1]
    by_cases h2 : (((s.drop alt.length).take 11).length = 11 &&
        ((s.drop alt.length).take 11).all idChar) = true
    · rw [if_pos h2]
      simp only [Bool.and_eq_true, decide_eq_true_eq] at h2
      constructor
      · intro h
        injection h with hv
        subst hv
        exact ⟨h1, rfl, h2.1, h2.2⟩
      · rintro ⟨-, rfl, -, -⟩
        rfl
    · rw [if_neg h2]
      constructor
      · intro h
        cases h
      · rintro ⟨-, rfl, h3, h4⟩
        exact absurd (by simp [h3, h4]) h2
  · rw [if_neg h1]
    constructor
    · intro h
      cases h
    · rintro ⟨h1', -, -, -⟩
      exact absurd h1' h1

theorem tryAlts_some {alts : List (List Char)} {s v : List Char}
    (h : tryAlts alts s = some v) : ∃ a ∈ alts, captureAt a s = some v := by
  induction alts with
  | nil => cases h
  | cons a rest ih =>
    simp only [tryAlts] at h
    cases hca : captureAt a s with
    | some w =>
      rw [hca] at h
      injection h with hv
      exact ⟨a, by simp, by rw [hca, hv]⟩
    | none =>
      rw [hca] at h
      obtain ⟨b, hb, hcb⟩ := ih h
      exact ⟨b, by simp [hb], hcb⟩

theorem scanMatch_iff {alts : List (List Char)} {s v : List Char} :
    scanMatch alts s = some v ↔
      ∃ k, k ≤ s.length ∧ tryAlts alts (s.drop k) = some v ∧
        ∀ j, j < k → tryAlts alts (s.drop j) = none := by
  induction s with
  | nil =>
    simp only [scanMatch]
    constructor
    · intro h
      exact ⟨0, by simp, by simpa using h, by omega⟩
    · rintro ⟨k, hk, h1, h2⟩
      simpa using h1
  | cons c rest ih =>
    simp only [scanMatch]
    cases hta : tryAlts alts (c :: rest) with
    | some w =>
      constructor
      · intro h
        injection h with hv
        subst hv
        exact ⟨0, by omega, by simpa using hta, by omega⟩
      · rintro ⟨k, hk, h1, h2⟩
        cases k with
        | zero =>
          rw [List.drop_zero] at h1
          rw [hta] at h1
          exact h1
        | succ k' =>
          have h0 := h2 0 (by omega)
          rw [List.drop_zero, hta] at h0
          cases h0
    | none =>
      rw [ih]
      constructor
      · rintro ⟨k, hk, h1, h2⟩
        refine ⟨k + 1, by simpa using Nat.succ_le_succ hk, ?_, ?_⟩
        · simpa [List.drop_succ_cons] using h1
        · intro j hj
          cases j with
          | zero => simpa [List.drop_zero] using hta
          | succ j' =>
            have := h2 j' (by omega)
            simpa [List.drop_succ_cons] using this
      · rintro ⟨k, hk, h1, h2⟩
        cases k with
        | zero =>
          rw [List.drop_zero, hta] at h1
          cases h1
        | succ k' =>
          refine ⟨k', by simpa using Nat.le_of_succ_le_succ hk, ?_, ?_⟩
          · simpa [List.drop_succ_cons] using h1
          · intro j hj
            have := h2 (j + 1) (by omega)
            simpa [List.drop_succ_cons] using this

theorem runPattern_11 {alts : List String} {s v : String}
    (h : runPattern alts s = some v) :
    v.length = 11 ∧ v.data.all idChar = true := by
  unfold runPattern at h
  cases hsm : scanMatch (alts.map String.data) s.data with
  | none => rw [hsm] at h; cases h
  | some w =>
    rw [hsm] at h
    injection h with hv
    subst hv
    obtain ⟨k, -, hta, -⟩ := scanMatch_iff.mp hsm
    obtain ⟨a, -, hca⟩ := tryAlts_some hta
    have hprops := captureAt_iff.mp hca
    exact ⟨hprops.2.2.1, hprops.2.2.2⟩

theorem runPat_11 {p : Pattern} {s v : String} (h : runPat p s = some v) :
    v.length = 11 ∧ v.data.all idChar = true := by
  cases p with
  | alts as =>
    simp only [runPat] at h
    exact runPattern_11 h
  | anchoredId =>
    simp only [runPat] at h
    unfold anchored11 at h
    by_cases hcond : (s.length = 11 && s.data.all idChar) = true
    · rw [if_pos hcond] at h
      injection h with hv
      subst hv
      simpa only [Bool.and_eq_true, decide_eq_true_eq] using hcond
    · rw [if_neg hcond] at h
      cases h

theorem firstMatch_11 {ps : List Pattern} {s v : String}
    (h : firstMatch ps s = some v) :
    v.length = 11 ∧ v.data.all idChar = true := by
  induction ps with
  | nil => cases h
  | cons q qs ih =>
    simp only [firstMatch] at h
    cases hq : runPat q s with
    | some w =>
      rw [hq] at h
      injection h with hv
      subst hv
      exact runPat_11 hq
    | none =>
      rw [hq] at h
      exact ih h

theorem firstMatch_iff {ps : List Pattern} {s v : String} :
    firstMatch ps s = some v ↔
      ∃ pre p post, ps = pre ++ p :: post ∧ (∀ q ∈ pre, runPat q s = none) ∧
        runPat p s = some v := by
  induction ps with
  | nil =>
    constructor
    · intro h; cases h
    · rintro ⟨pre, p, post, hps, -, -⟩
      exact absurd hps (by simp)
  | cons q qs ih =>
    simp only [firstMatch]
    cases hq : runPat q s with
    | some w =>
      constructor
      · intro h
        injection h with hv
        exact ⟨[], q, qs, rfl, by simp, by rw [hq, hv]⟩
      · rintro ⟨pre, p, post, hps, hpre, hp⟩
        cases pre with
        | nil =>
          injection hps with hq' hrest
          rw [← hq'] at hp
          rw [hq] at hp
          exact hp
        | cons q' pre' =>
          injection hps with hq' hrest
          have := hpre q' (by simp)
          rw [← hq'] at this
          rw [hq] at this
          cases this
    | none =>
      rw [ih]
      constructor
      · rintro ⟨pre, p, post, hps, hpre, hp⟩
        refine ⟨q :: pre, p, post, by rw [hps, List.cons_append], ?_, hp⟩
        intro x hx
        rcases List.mem_cons.mp hx with hx | hx
        · rw [hx]; exact hq
        · exact hpre x hx
      · rintro ⟨pre, p, post, hps, hpre, hp⟩
        cases pre with
        | nil =>
          injection hps with hq' hrest
          rw [← hq', hq] at hp
          cases hp
        | cons q' pre' =>
          injection hps with hq' hrest
          exact ⟨pre', p, post, hrest, fun x hx => hpre x (by simp [hx]), hp⟩

/-- C5: extractVideoId returns the input itself when it is an
11-character string over [a-zA-Z0-9_-]; otherwise it returns the result
of the pattern loop, i.e. the 11-character id captured by the first
matching pattern at its leftmost match (or null when none matches), in
both the index.js version and the later versions; and its result is
always either null or an 11-character string over [a-zA-Z0-9_-]. -/
theorem extractVideoId_spec :
    (∀ input : String, input.length = 11 → input.data.all idChar = true →
      extractVideoId input = some input ∧ extractVideoId_v1 input = some input) ∧
    (∀ input v : String,
      extractVideoId input = some v ∨ extractVideoId_v1 input = some v →
      v.length = 11 ∧ v.data.all idChar = true) ∧
    (∀ input : String, ¬ (input.length = 11 ∧ input.data.all idChar = true) →
      extractVideoId input = firstMatch patternsLater input ∧
      extractVideoId_v1 input = firstMatch patternsV1 input) ∧
    (∀ (ps : List Pattern) (s v : String),
      firstMatch ps s = some v ↔
        ∃ pre p post, ps = pre ++ p :: post ∧ (∀ q ∈ pre, runPat q s = none) ∧
          runPat p s = some v) ∧
    (∀ (alts : List (List Char)) (s v : List Char),
      scanMatch alts s = some v ↔
        ∃ k, k ≤ s.length ∧ tryAlts alts (s.drop k) = some v ∧
          ∀ j, j < k → tryAlts alts (s.drop j) = none) ∧
    (∀ alt s v : List Char,
      captureAt alt s = some v ↔
        alt.isPrefixOf s = true ∧ v = (s.drop alt.length).take 11 ∧
          v.length = 11 ∧ v.all idChar = true) := by
  refine ⟨?_, ?_, ?_, fun ps s v => firstMatch_iff, fun alts s v => scanMatch_iff,
    fun alt s v => captureAt_iff⟩
  · intro input h1 h2
    constructor
    · simp [extractVideoId, h1, h2]
    · simp [extractVideoId_v1, h1, h2]
  · intro input v h
    have hgen : ∀ w : String,
        (if input.length = 11 && input.data.all idChar then some input
          else firstMatch patternsLater input) = some w ∨
        (if input.length = 11 && input.data.all idChar then some input
          else firstMatch patternsV1 input) = some w →
        w.length = 11 ∧ w.data.all idChar = true := by
      intro w hw
      by_cases hcond : (input.length = 11 && input.data.all idChar) = true
      · simp only [hcond, if_true] at hw
        have hv : input = w := by
          rcases hw with hw | hw
          · exact Option.some.inj hw
          · exact Option.some.inj hw
        subst hv
        simpa only [Bool.and_eq_true, decide_eq_true_eq] using hcond
      · simp only [hcond, if_false] at hw
        rcases hw with hw | hw
        · exact firstMatch_11 hw
        · exact firstMatch_11 hw
    exact hgen v h
  · intro input hne
    have hcond : ¬ ((input.length = 11 && input.data.all idChar) = true) := by
      simp only [Bool.and_eq_true, decide_eq_true_eq]
      exact fun hcc => hne hcc
    constructor
    · unfold extractVideoId
      rw [if_neg hcond]
    · unfold extractVideoId_v1
      rw [if_neg hcond]

/-- C5 witness: a bare 11-character id is returned unchanged by both
versions of extractVideoId. -/
theorem extractVideoId_spec_witness :
    extractVideoId "dQw4w9WgXcQ" = some "dQw4w9WgXcQ" ∧
    extractVideoId_v1 "dQw4w9WgXcQ" = some "dQw4w9WgXcQ" :=
  extractVideoId_spec.1 "dQw4w9WgXcQ" (by decide) (by decide)

end Ascend
